import Mathlib

/-!
# Verification of the i18n engine (`i18n.ts`) and the tab controller (`tabs.ts`)

This file gives a shallow embedding of the two controllers of the repository
that the specification describes — the locale resolver / translation engine
(`src` file `i18n.ts`) and the tab/content-switch controller (`tabs.ts`) —
and proves or refutes the specified properties about them.

Modelling conventions:
* JSON translation values (`string | string[] | TranslationObject`) become the
  inductive `I18n.TranslationValue`; JS objects become association lists in
  insertion order, so JS property assignment and lookup are modelled exactly.
* `async` functions never suspend observably; they are modelled as pure
  functions.  Module imports (which may fail) are modelled by an environment
  `env : LocaleCode → Namespace → Option TranslationValue` (`none` = the
  dynamic `import()` rejected).  A thrown exception nowhere escapes the
  modelled functions (each `catch` is total), so results are plain values.
* The module-level `translationCache` becomes explicit state passed through
  and returned by each function, together with a trace of the import attempts
  performed (used to state "no re-fetch" properties).
* Browser inputs (URL query parameters, `localStorage`, attributes) become
  explicit `Option String` parameters; timers become explicit schedules of
  delays measured from the moment the scheduling code runs.
-/

namespace I18n

/-- Supported locale codes (`type LocaleCode = "en" | "de"`). -/
inductive LocaleCode where
  | en
  | de
deriving DecidableEq, Repr

/-- Translation namespaces (`type Namespace = "common" | ... | "apply"`). -/
inductive Namespace where
  | common
  | home
  | shipper
  | carrier
  | faq
  | about
  | footer
  | getStarted
  | corridor
  | privacy
  | cookies
  | terms
  | imprint
  | investor
  | careers
  | jobs
  | capital
  | apply
deriving DecidableEq, Repr

/-- The JS string key of a namespace (the constructor `getStarted` is the
namespace `"get-started"`). -/
def nsName : Namespace → String
  | .common => "common"
  | .home => "home"
  | .shipper => "shipper"
  | .carrier => "carrier"
  | .faq => "faq"
  | .about => "about"
  | .footer => "footer"
  | .getStarted => "get-started"
  | .corridor => "corridor"
  | .privacy => "privacy"
  | .cookies => "cookies"
  | .terms => "terms"
  | .imprint => "imprint"
  | .investor => "investor"
  | .careers => "careers"
  | .jobs => "jobs"
  | .capital => "capital"
  | .apply => "apply"

/-- Source of language detection (`type LanguageSource`). -/
inductive LanguageSource where
  | url
  | localStorage
  | html
  | browser
  | default
  | manual
deriving DecidableEq, Repr

/-- A JSON translation value: `string | string[] | TranslationObject`
(arrays are generalised to hold any value, as `getNestedTranslation`
treats them generically). Objects are association lists in property
insertion order. -/
inductive TranslationValue where
  | str : String → TranslationValue
  | arr : List TranslationValue → TranslationValue
  | obj : List (String × TranslationValue) → TranslationValue

/-- `const availableLocales: LocaleCode[] = ["en", "de"]`. -/
def availableLocales : List LocaleCode := [.en, .de]

/-- `const translationNamespaces: Namespace[]` — the fixed namespace list, in
source order. -/
def translationNamespaces : List Namespace :=
  [.common, .home, .shipper, .carrier, .faq, .about, .footer, .getStarted,
   .corridor, .privacy, .cookies, .terms, .imprint, .investor, .careers,
   .jobs, .apply, .capital]

/-- `const defaultLanguage: LocaleCode = "en"`. -/
def defaultLanguage : LocaleCode := .en

/-- `availableLocales.includes(s)` for a raw string `s` (the JS code compares
the raw string against the supported codes). -/
def isSupported (s : String) : Bool :=
  s == "en" || s == "de"

/-- Interpret a raw string known to be a supported code as a `LocaleCode`
(the JS code keeps the string and merely casts; only ever applied under an
`isSupported` guard). -/
def toLocale (s : String) : LocaleCode :=
  if s == "de" then .de else .en

/-- `s.substring(0, 2).toLowerCase()` — the normalisation applied to the
document and browser languages (written on the character list so that it
evaluates in the kernel). -/
def normalize2 (s : String) : String :=
  String.mk ((s.toList.take 2).map Char.toLower)

/-- The browser-visible inputs read by `detectLanguage`:
`?lang` URL parameter, `localStorage` entry, `<html lang>` attribute,
`navigator.userLanguage` (IE legacy) and `navigator.language`. -/
structure DetectEnv where
  urlLang : Option String
  storageLang : Option String
  htmlLang : Option String
  userLanguage : Option String
  navigatorLanguage : String

/-- `detectLanguage` (i18n.ts lines 171-213): strict priority
URL → localStorage → `<html lang>` (first two chars, lowercased) →
browser language (normalised the same way) → default.  The JS truthiness
guards (`langFromUrl && ...`, `if (langFromHtml)`) are kept: an absent value
skips the tier. -/
def detectLanguage (e : DetectEnv) : LocaleCode × LanguageSource :=
  -- Priority 1: URL parameter
  match e.urlLang with
  | some s =>
    if s ≠ "" && isSupported s then (toLocale s, .url)
    else detectFromStorage e
  | none => detectFromStorage e
where
  /-- Priority 2: localStorage. -/
  detectFromStorage (e : DetectEnv) : LocaleCode × LanguageSource :=
    match e.storageLang with
    | some s =>
      if s ≠ "" && isSupported s then (toLocale s, .localStorage)
      else detectFromHtml e
    | none => detectFromHtml e
  /-- Priority 3: HTML lang attribute, normalised with
  `.substring(0, 2).toLowerCase()`. -/
  detectFromHtml (e : DetectEnv) : LocaleCode × LanguageSource :=
    match e.htmlLang with
    | some s =>
      if s ≠ "" then
        let normalizedLang := normalize2 s
        if isSupported normalizedLang then (toLocale normalizedLang, .html)
        else detectFromBrowser e
      else detectFromBrowser e
    | none => detectFromBrowser e
  /-- Priority 4: browser language (`userLanguage || navigator.language`),
  normalised the same way; Priority 5: the default. -/
  detectFromBrowser (e : DetectEnv) : LocaleCode × LanguageSource :=
    let raw :=
      match e.userLanguage with
      | some u => if u = "" then e.navigatorLanguage else u
      | none => e.navigatorLanguage
    let browserLang := normalize2 raw
    if isSupported browserLang then (toLocale browserLang, .browser)
    else (defaultLanguage, .default)

/-- Parse a raw string into a supported locale, or `none`. -/
def parseLocale (s : String) : Option LocaleCode :=
  if s = "en" then some .en else if s = "de" then some .de else none

/-- Modelled from the spec's words (§4.1 `detectLocale`): return the first
tier, in the order URL / storage / document attribute (normalised to its
first two lowercased characters) / browser language (normalised the same
way), whose value is a supported locale, else the fixed default. -/
def detectLanguageSpec (e : DetectEnv) : LocaleCode × LanguageSource :=
  match e.urlLang.bind parseLocale with
  | some l => (l, .url)
  | none =>
    match e.storageLang.bind parseLocale with
    | some l => (l, .localStorage)
    | none =>
      match e.htmlLang.bind (fun s => parseLocale (normalize2 s)) with
      | some l => (l, .html)
      | none =>
        let raw :=
          match e.userLanguage with
          | some u => if u = "" then e.navigatorLanguage else u
          | none => e.navigatorLanguage
        match parseLocale (normalize2 raw) with
        | some l => (l, .browser)
        | none => (defaultLanguage, .default)

/-- JS object property read: first (hence only) binding wins. -/
def objGet (fields : List (String × TranslationValue)) (k : String) :
    Option TranslationValue :=
  (fields.find? (fun p => p.1 == k)).map (·.2)

/-- JS object property assignment `obj[k] = v`: overwrite in place, else
append. -/
def objSet : List (String × TranslationValue) → String → TranslationValue →
    List (String × TranslationValue)
  | [], k, v => [(k, v)]
  | (k', v') :: rest, k, v =>
    if k' = k then (k', v) :: rest else (k', v') :: objSet rest k v

/-- `interface NamespacedTranslations`: a JS object keyed by namespace
names. -/
def NamespacedTranslations := List (String × TranslationValue)

/-- `const translationCache: Map<LocaleCode, NamespacedTranslations>`. -/
def Cache := LocaleCode → Option NamespacedTranslations

/-- The cache at startup (`new Map()`). -/
def emptyCache : Cache := fun _ => none

/-- `translationCache.set(l, v)`. -/
def cacheSet (c : Cache) (l : LocaleCode) (v : NamespacedTranslations) :
    Cache :=
  fun x => if x = l then some v else c x

/-- The import environment: `localeImportMap[locale][namespace]()` either
resolves with the module's JSON object (`some`) or rejects (`none`).  The
map itself is total over `LocaleCode × Namespace`. -/
def ImportEnv := LocaleCode → Namespace → Option TranslationValue

/-- The recursive self-call `loadNamespace(defaultLanguage, namespace)` of
the `catch` block: for the default locale a failed import yields `{}`
(`locale !== defaultLanguage` is false there). -/
def loadNamespaceDefault (env : ImportEnv) (n : Namespace) :
    TranslationValue :=
  match env defaultLanguage n with
  | some t => t
  | none => TranslationValue.obj []

/-- `loadNamespace` (i18n.ts lines 304-331): return the imported document;
on failure fall back to the same namespace of the default locale, and if
that also fails return `{}`.  The single reachable level of self-recursion
(`loadNamespace(defaultLanguage, namespace)`) is written out as
`loadNamespaceDefault`. -/
def loadNamespace (env : ImportEnv) (l : LocaleCode) (n : Namespace) :
    TranslationValue :=
  match env l n with
  | some t => t
  | none =>
    if l ≠ defaultLanguage then loadNamespaceDefault env n
    else TranslationValue.obj []

/-- The import attempts performed by one `loadNamespace(l, n)` call, in
order. -/
def namespaceFetches (env : ImportEnv) (l : LocaleCode) (n : Namespace) :
    List (LocaleCode × Namespace) :=
  match env l n with
  | some _ => [(l, n)]
  | none =>
    if l ≠ defaultLanguage then [(l, n), (defaultLanguage, n)]
    else [(l, n)]

/-- The `combinedTranslations` object assembled by `loadLocaleFile`:
`results.forEach(({namespace, translations}) => { combined[namespace] =
translations })` over the fixed namespace list. -/
def combinedTranslations (env : ImportEnv) (l : LocaleCode) :
    NamespacedTranslations :=
  translationNamespaces.foldl
    (fun acc n => objSet acc (nsName n) (loadNamespace env l n)) []

/-- All import attempts of a full-locale load, in request order. -/
def localeFetches (env : ImportEnv) (l : LocaleCode) :
    List (LocaleCode × Namespace) :=
  (translationNamespaces.map (fun n => namespaceFetches env l n)).flatten

/-- `loadLocaleFile` (i18n.ts lines 333-363): serve the cache when allowed,
else load every namespace (via `loadNamespace`, which never throws — hence
the `catch` block of `loadLocaleFile` is unreachable and is not modelled),
assemble the combined object, cache it and return it.  Result: the returned
document set, the new cache, and the trace of import attempts. -/
def loadLocaleFile (env : ImportEnv) (l : LocaleCode) (useCache : Bool)
    (c : Cache) :
    NamespacedTranslations × Cache × List (LocaleCode × Namespace) :=
  if useCache then
    match c l with
    | some cached => (cached, c, [])
    | none =>
      let combined := combinedTranslations env l
      (combined, cacheSet c l combined, localeFetches env l)
  else
    let combined := combinedTranslations env l
    (combined, cacheSet c l combined, localeFetches env l)

/-- `loadSingleNamespace` (i18n.ts lines 365-384): serve a cached namespace
document; otherwise load it (with fallback) and merge it into the locale's
cache entry, creating the entry (`{}`) first when absent. -/
def loadSingleNamespace (env : ImportEnv) (l : LocaleCode) (n : Namespace)
    (c : Cache) :
    TranslationValue × Cache × List (LocaleCode × Namespace) :=
  match c l with
  | some cached =>
    match objGet cached (nsName n) with
    | some t => (t, c, [])
    | none =>
      let t := loadNamespace env l n
      (t, cacheSet c l (objSet cached (nsName n) t), namespaceFetches env l n)
  | none =>
    let t := loadNamespace env l n
    (t, cacheSet c l (objSet [] (nsName n) t), namespaceFetches env l n)

/-- `clearCache` (i18n.ts lines 545-551): delete one locale's entry, or,
without an argument, clear the whole map. -/
def clearCache (locale : Option LocaleCode) (c : Cache) : Cache :=
  match locale with
  | some l => fun x => if x = l then none else c x
  | none => fun _ => none

/-- `key.split(".")` on the character list: every `'.'` separates segments,
adjacent dots give empty segments, the empty key gives `[""]` — exactly the
JS `String.prototype.split` behaviour for a one-character separator. -/
def splitDotsAux : List Char → List Char → List String
  | [], acc => [String.mk acc.reverse]
  | '.' :: rest, acc => String.mk acc.reverse :: splitDotsAux rest []
  | c :: rest, acc => splitDotsAux rest (c :: acc)

/-- The segments of a dotted key. -/
def keySegments (key : String) : List String :=
  splitDotsAux key.toList []

/-- Is `c` one of the line terminators that the JS regex `.` refuses to
match (`\n`, `\r`, U+2028, U+2029)? -/
def isLineTerminator (c : Char) : Bool :=
  c = '\n' || c = '\r' || c.toNat = 0x2028 || c.toNat = 0x2029

/-- Digit-string to number, `parseInt(ds, 10)` on an all-digit string. -/
def digitsToNat (ds : List Char) : Nat :=
  ds.foldl (fun n c => n * 10 + (c.toNat - '0'.toNat)) 0

/-- `k.match(/^(.+?)\[(\d+)\]$/)`: succeeds exactly when
`k = prop ++ "[" ++ digits ++ "]"` with `prop` nonempty and free of line
terminators (`.` does not match them) and `digits` a nonempty ASCII digit
run; the decomposition is unique because `digits` can contain no bracket.
Returns `(prop, parseInt(digits))`. -/
def bracketMatch (k : String) : Option (String × Nat) :=
  match k.toList.reverse with
  | ']' :: rest =>
    let ds := rest.takeWhile Char.isDigit
    match rest.drop ds.length with
    | '[' :: propRev =>
      if ds.isEmpty || propRev.isEmpty
         || propRev.any isLineTerminator then none
      else some (String.mk propRev.reverse, digitsToNat ds.reverse)
    | _ => none
  | _ => none

/-- The canonical decimal numeral check: `some i` exactly when `k` is the
string `toString(i)` (nonempty, all ASCII digits, no leading zero except
`"0"` itself) — the own array-index properties of a JS array. -/
def parseCanonicalIndex (k : String) : Option Nat :=
  match k.toList with
  | [] => none
  | c :: rest =>
    if (c :: rest).all Char.isDigit && (c ≠ '0' || rest.isEmpty) then
      some (digitsToNat (c :: rest))
    else none

/-- One member read `result[k]` guarded by
`result && typeof result === "object" && k in result` (i18n.ts lines
401/412).  Strings fail the `typeof` guard.  For arrays the own properties
that can ever produce a non-`null` final result are the canonical element
indices; the remaining `in`-visible properties (`length`, prototype
methods) hold numbers or functions, which every later step and the final
string check map to `null`, so they are modelled as absent. -/
def memberGet : TranslationValue → String → Option TranslationValue
  | .obj fields, k => objGet fields k
  | .arr xs, k =>
    match parseCanonicalIndex k with
    | some i => xs.get? i
    | none => none
  | .str _, _ => none

/-- One loop iteration of `getNestedTranslation` for segment `k`:
bracket segments read the property then index the array
(`Array.isArray(result) && index < result.length`), plain segments read
the property; every failed guard is the early `return null`. -/
def getStep (result : TranslationValue) (k : String) :
    Option TranslationValue :=
  match bracketMatch k with
  | some (propName, index) =>
    match memberGet result propName with
    | some r =>
      match r with
      | .arr xs => xs.get? index
      | _ => none
    | none => none
  | none => memberGet result k

/-- `getNestedTranslation` (i18n.ts lines 386-421): split the key on `.`,
walk with `getStep` (early `return null` = the `Option` short-circuit),
finally `typeof result === "string" ? result : null`. -/
def getNestedTranslation (key : String) (json : NamespacedTranslations) :
    Option String :=
  match (keySegments key).foldlM getStep (TranslationValue.obj json) with
  | some (.str s) => some s
  | _ => none

/-- Modelled from the spec's words (§4.1 `resolveKey`): recursively walk
the segments; a segment with a trailing `[N]` reads the property then the
array index, a plain segment reads the property; return `null` on an
absent segment, a non-object intermediate, or an out-of-bounds index, and
return the leaf only when it is a string. -/
def resolveKeySpec : List String → TranslationValue → Option String
  | [], v =>
    match v with
    | .str s => some s
    | _ => none
  | seg :: rest, v =>
    match bracketMatch seg with
    | some (propName, index) =>
      match memberGet v propName with
      | some (.arr xs) =>
        match xs.get? index with
        | some x => resolveKeySpec rest x
        | none => none
      | _ => none
    | none =>
      match memberGet v seg with
      | some x => resolveKeySpec rest x
      | none => none

/-- Replace the leftmost non-overlapping occurrences of the nonempty
pattern `pat` by `rep`, left to right — the behaviour of a JS
`String.prototype.replace` with a global literal pattern.  The fuel is the
length of the scanned list (the scan consumes at least one character per
step, so the fuel never runs out for the initial call). -/
def replaceLoop (pat rep : List Char) : Nat → List Char → List Char
  | _, [] => []
  | 0, s => s
  | fuel + 1, c :: rest =>
    if pat.isPrefixOf (c :: rest) then
      rep ++ replaceLoop pat rep fuel ((c :: rest).drop pat.length)
    else c :: replaceLoop pat rep fuel rest

/-- `s.replace(new RegExp(pat, "g"), rep)` for a literal pattern. -/
def jsReplaceAll (s pat rep : String) : String :=
  String.mk (replaceLoop pat.toList rep.toList s.toList.length s.toList)

/-- Characters that stand for themselves in a JS regular expression
outside a character class and cannot combine with surrounding text into a
quantifier or any other construct: ASCII letters, ASCII digits,
underscore, hyphen and space. -/
def regexLiteralChar (c : Char) : Bool :=
  c.isAlpha || c.isDigit || c = '_' || c = '-' || c = ' '

/-- Variable names for which `new RegExp("{" + name + "}", "g")` is a
valid regular expression that matches exactly the literal text `{name}`:
every character is regex-literal and the braced name is not a quantifier
shape (a nonempty all-digit name could form one).  For other names the
constructor may throw a SyntaxError that escapes `t` (for example the
name `(` builds the invalid pattern `{(}`), or the pattern matches text
other than the literal placeholder (for example the name `a.b`). -/
def regexPlainName (name : String) : Bool :=
  name.toList.all regexLiteralChar &&
    !(!name.toList.isEmpty && name.toList.all Char.isDigit)

/-- Replacement values without `$`: the JS replace inserts them verbatim,
while a `$` starts a substitution pattern. -/
def plainValue (value : String) : Bool :=
  value.toList.all (fun c => c ≠ '$')

/-- One iteration of the variable pass of `t` (i18n.ts line 567):
`text.replace(new RegExp("{" + varKey + "}", "g"), value)`.  On the
modelled fragment — a regex-plain name and a `$`-free value — the regex is
a plain literal and the call is exactly a global literal replacement.
Outside that fragment the source follows raw RegExp semantics (a
SyntaxError escaping `t` for a regex-invalid name, regex rather than
literal matching for metacharacter names, `$`-substitution in values),
which this embedding does not model: the result is `none` and no theorem
claims anything there. -/
def substituteVariable (text name value : String) : Option String :=
  if regexPlainName name && plainValue value then
    some (jsReplaceAll text ("\x7b" ++ name ++ "\x7d") value)
  else none

/-- The variable pass of `t` (i18n.ts lines 565-569):
`Object.entries(variables)` folded in insertion order, each entry
replacing its placeholder; `none` as soon as one entry leaves the
modelled literal-regex fragment. -/
def applyVariables (text : String) (vars : List (String × String)) :
    Option String :=
  vars.foldlM (fun acc p => substituteVariable acc p.1 p.2) text

/-- `t` (i18n.ts lines 553-572): load the active locale's document set
(through the cache), resolve the key, return the key itself when the
result is falsy (`null` or `""` — the variable pass does not run on that
path, so no exception is possible there), else substitute the supplied
variables.  Returns the string and the possibly-grown cache; the first
component is `none` exactly when the substitution left the modelled
fragment (where the source may throw or deviate from literal
replacement). -/
def t (env : ImportEnv) (pageLanguage : LocaleCode) (key : String)
    (vars : List (String × String)) (c : Cache) : Option String × Cache :=
  let r := loadLocaleFile env pageLanguage true c
  match getNestedTranslation key r.1 with
  | none => (some key, r.2.1)
  | some text =>
    if text = "" then (some key, r.2.1)
    else (applyVariables text vars, r.2.1)

end I18n

namespace Tabs

/-- `TabConfig` (tabs.ts lines 337-362) restricted to the fields the logic
reads, together with the DOM bindings the selectors produce: `tabValues`
is the discriminator attribute of each matched trigger in document order
(`none` = attribute absent), `contentValues` likewise for the content
blocks.  The URL is abstracted to the value of the group's own query
parameter.  Defaults are the destructuring defaults of `initTabs`. -/
structure TabConfig where
  tabValues : List (Option String)
  contentValues : List (Option String)
  defaultTab : String
  showAll : Bool := false
  animationType : String := "fade-left"
  animationDuration : Int := 400
  staggerDelay : Int := 0
  autoRotate : Bool := false
  autoRotateInterval : Int := 5000

/-- `shouldShow` inside `switchContent` (tabs.ts lines 477-479):
`showAll ? tabValue === "all" || contentValue === tabValue
         : contentValue === tabValue`. -/
def shouldShow (cfg : TabConfig) (tabValue : String)
    (contentValue : Option String) : Bool :=
  if cfg.showAll then tabValue == "all" || contentValue == some tabValue
  else contentValue == some tabValue

/-- `updateActiveTab` (tabs.ts lines 438-448) expressed on trigger
positions: the trigger identical to the activated one gets the active
marker classes, every other trigger loses them. -/
def markActive (numTabs : Nat) (activeIdx : Nat) : List Bool :=
  (List.range numTabs).map (fun j => j == activeIdx)

/-- `urlParams.get(queryParam) || defaultTab` (tabs.ts line 424): the URL
value when present and non-empty (`""` is falsy), else the default. -/
def initialTab (urlValue : Option String) (defaultTab : String) : String :=
  match urlValue with
  | some v => if v = "" then defaultTab else v
  | none => defaultTab

/-- `updateURL` (tabs.ts lines 454-462): the group's query parameter after
activating `tabValue` — deleted when it is the default, else set. -/
def updateURL (cfg : TabConfig) (tabValue : String) : Option String :=
  if tabValue = cfg.defaultTab then none else some tabValue

/-- The per-content-block visibility once a `switchContent(tabValue, _)`
call and all of its timers have run: shown blocks end
`display: block` + `is-visible`, hidden blocks end `display: none`. -/
def contentVisible (cfg : TabConfig) (tabValue : String) : List Bool :=
  cfg.contentValues.map (shouldShow cfg tabValue)

/-- The timer schedule produced by one `switchContent(tabValue, animate)`
call (tabs.ts lines 471-565).  `hideRemovals` pairs each outgoing block's
content index with the delay (ms from the call) after which
`display: none` is applied; `showPhaseDelay` is the single timeout that
starts the show phase; `showItems` pairs each incoming block's content
index with the CSS animation delay and duration it is given at that
moment. -/
structure SwitchSchedule where
  hideRemovals : List (Nat × Int)
  showPhaseDelay : Int
  showItems : List (Nat × Int × Int)

/-- `switchContent` (tabs.ts lines 471-565) as its observable schedule:
partition the blocks in document order, fade each outgoing block out and
remove it from flow after `hideDuration + index * 30` ms
(`hideDuration = 200`; immediately when not animated), schedule the show
phase after `hideDuration + (itemsToHide.length - 1) * 30` ms when
animated else `0`, and give the `index`-th incoming block the CSS delay
`index * staggerDelay` and duration `animationDuration`. -/
def switchContent (cfg : TabConfig) (tabValue : String) (animate : Bool) :
    SwitchSchedule :=
  let itemsToHide :=
    cfg.contentValues.enum.filter (fun p => !(shouldShow cfg tabValue p.2))
  let itemsToShow :=
    cfg.contentValues.enum.filter (fun p => shouldShow cfg tabValue p.2)
  let hideDuration : Int := 200
  let hideRemovals :=
    itemsToHide.enum.map
      (fun p => (p.2.1, if animate then hideDuration + p.1 * 30 else 0))
  let hideCompleteDelay : Int :=
    if animate then hideDuration + ((itemsToHide.length : Int) - 1) * 30
    else 0
  let showItems :=
    itemsToShow.enum.map
      (fun p => (p.2.1, (p.1 : Int) * cfg.staggerDelay, cfg.animationDuration))
  { hideRemovals := hideRemovals
    showPhaseDelay := hideCompleteDelay
    showItems := showItems }

/-- The mutable state of one initialised tab group: `currentTabIndex`, the
active-marker classes across the triggers, the group's URL parameter, the
settled content visibility, whether the auto-rotation interval timer is
installed, and a pending `setTimeout(startAutoRotation, …)` delay if one
was scheduled by the last click. -/
structure TabState where
  currentTabIndex : Nat
  activeFlags : List Bool
  url : Option String
  visible : List Bool
  rotationActive : Bool
  pendingRestart : Option Int

/-- The result of the initialization part of `initTabs` (tabs.ts lines
414-430 and 622-640): the value passed to the initial
`switchContent(initialTab, false)`, the initial `currentTabIndex`
(`findIndex`, `-1` replaced by `0`), the trigger marker classes (updated
only when some trigger matches the initial value, else left as the markup
had them), and the settled content visibility. -/
structure InitResult where
  activatedValue : String
  currentTabIndex : Nat
  activeFlags : List Bool
  visible : List Bool

/-- `initTabs` initialization (tabs.ts lines 398-430, 622-640): no-op when
either selector matches nothing; otherwise resolve the initial value from
the URL, mark the first matching trigger active (when one exists), and
show that value's content without animation.  `markupFlags` is the
active-marker state the static markup gave the triggers. -/
def initTabs (cfg : TabConfig) (urlValue : Option String)
    (markupFlags : List Bool) : Option InitResult :=
  if cfg.tabValues.isEmpty || cfg.contentValues.isEmpty then none
  else
    let it := initialTab urlValue cfg.defaultTab
    some
      { activatedValue := it
        currentTabIndex :=
          (cfg.tabValues.findIdx? (fun v => v == some it)).getD 0
        activeFlags :=
          match cfg.tabValues.findIdx? (fun v => v == some it) with
          | some i => markActive cfg.tabValues.length i
          | none => markupFlags
        visible := contentVisible cfg it }

/-- The click handler (tabs.ts lines 592-617) for the trigger at position
`i`: return unchanged when the trigger has no (or an empty) discriminator
value; otherwise stop any running rotation timer, update
`currentTabIndex`, the marker classes, the URL and the content, and — when
`autoRotate` is configured — schedule `startAutoRotation` after one full
`autoRotateInterval`. -/
def clickTab (cfg : TabConfig) (i : Nat) (s : TabState) : TabState :=
  match cfg.tabValues.get? i with
  | some (some v) =>
    if v = "" then s
    else
      { currentTabIndex := i
        activeFlags := markActive cfg.tabValues.length i
        url := updateURL cfg v
        visible := contentVisible cfg v
        rotationActive := false
        pendingRestart :=
          if cfg.autoRotate then some cfg.autoRotateInterval else none }
  | _ => s

/-- One tick of the `setInterval` of `startAutoRotation` (tabs.ts lines
570-587): advance `currentTabIndex` cyclically; when the next trigger
carries a non-empty discriminator value, update the marker classes, the
URL and the content. -/
def rotationTick (cfg : TabConfig) (s : TabState) : TabState :=
  let i := (s.currentTabIndex + 1) % cfg.tabValues.length
  match cfg.tabValues.get? i with
  | some (some v) =>
    if v = "" then { s with currentTabIndex := i }
    else
      { s with
        currentTabIndex := i
        activeFlags := markActive cfg.tabValues.length i
        url := updateURL cfg v
        visible := contentVisible cfg v }
  | _ => { s with currentTabIndex := i }

/-- The interval timer only fires while it is installed: a tick of a
cleared timer does nothing. -/
def tickIfActive (cfg : TabConfig) (s : TabState) : TabState :=
  if s.rotationActive then rotationTick cfg s else s

/-- The `popstate` handler (tabs.ts lines 645-657): re-derive the value
from the URL (or default), and when some trigger matches it, update the
marker classes, the content, and `currentTabIndex` — without touching the
rotation timer. -/
def popstateTab (cfg : TabConfig) (urlValue : Option String)
    (s : TabState) : TabState :=
  let v := initialTab urlValue cfg.defaultTab
  match cfg.tabValues.findIdx? (fun tv => tv == some v) with
  | some i =>
    { s with
      currentTabIndex := i
      activeFlags := markActive cfg.tabValues.length i
      visible := contentVisible cfg v }
  | none => s

end Tabs

open I18n Tabs

/-! ### Theorems about the claims

Definitions above are the embedding of the source; the theorems below
settle the specified properties.  Helper lemmas carry no claim names. -/

/-- The JSON object `{"a": {"b": "hello"}}` as a document set. -/
def sampleDocAB : NamespacedTranslations :=
  [("a", .obj [("b", .str "hello")])]

/-- The JSON object `{"items": ["x", "y", "z"]}` as a document set. -/
def sampleDocItems : NamespacedTranslations :=
  [("items", .arr [.str "x", .str "y", .str "z"])]

/-- The walk of `getNestedTranslation` (fold with early exit, then the final
string check) agrees segmentwise with the recursive spec-side resolver. -/
theorem getStep_fold_eq_resolveKeySpec (segs : List String) :
    ∀ v : TranslationValue,
      (match segs.foldlM getStep v with
       | some (.str s) => some s
       | _ => none) = resolveKeySpec segs v := by
  induction segs with
  | nil =>
    intro v
    cases v <;> simp [resolveKeySpec]
  | cons seg rest ih =>
    intro v
    rw [List.foldlM_cons]
    show (match getStep v seg >>= rest.foldlM getStep with
          | some (.str s) => some s
          | _ => none) = _
    cases hb : bracketMatch seg with
    | none =>
      cases hm : memberGet v seg with
      | none => simp [resolveKeySpec, getStep, hb, hm]
      | some x => simp [resolveKeySpec, getStep, hb, hm, ih x]
    | some pi =>
      obtain ⟨propName, index⟩ := pi
      cases hm : memberGet v propName with
      | none => simp [resolveKeySpec, getStep, hb, hm]
      | some r =>
        cases r with
        | str s => simp [resolveKeySpec, getStep, hb, hm]
        | obj fields => simp [resolveKeySpec, getStep, hb, hm]
        | arr xs =>
          cases hg : xs[index]? with
          | none => simp [resolveKeySpec, getStep, hb, hm, hg]
          | some x => simp [resolveKeySpec, getStep, hb, hm, hg, ih x]

/-- Claim C1: `getNestedTranslation` splits the key on `.`, treats a trailing
`[N]` on a segment as an array index, walks the tree, and returns the leaf
exactly when it is a string, `null` whenever a segment is absent, an
intermediate value is not an object, or an index is out of bounds — stated
as agreement with the spec-side resolver on every key and document, plus the
specified concrete cases on `{"a":{"b":"hello"}}` and
`{"items":["x","y","z"]}`. -/
theorem C1_resolveKey_correct :
    (∀ (key : String) (json : NamespacedTranslations),
       getNestedTranslation key json =
         resolveKeySpec (keySegments key) (.obj json)) ∧
    getNestedTranslation "a.b" sampleDocAB = some "hello" ∧
    getNestedTranslation "a.c" sampleDocAB = none ∧
    getNestedTranslation "a.b.c" sampleDocAB = none ∧
    getNestedTranslation "items[1]" sampleDocItems = some "y" ∧
    getNestedTranslation "items[9]" sampleDocItems = none :=
  ⟨fun key json => getStep_fold_eq_resolveKeySpec (keySegments key) (.obj json),
   rfl, rfl, rfl, rfl, rfl⟩

/-- Every string is `"en"`, `"de"`, or unsupported on both readings. -/
theorem supported_cases (s : String) :
    s = "en" ∨ s = "de" ∨ (isSupported s = false ∧ parseLocale s = none) := by
  by_cases h1 : s = "en"
  · exact Or.inl h1
  by_cases h2 : s = "de"
  · exact Or.inr (Or.inl h2)
  refine Or.inr (Or.inr ⟨?_, ?_⟩)
  · simp [isSupported, h1, h2]
  · simp [parseLocale, h1, h2]

/-- A detection tier guarded by `isSupported` alone agrees with the
`parseLocale` reading. -/
theorem supportedTier (s : String) (ok : LocaleCode → LocaleCode × LanguageSource)
    (next : LocaleCode × LanguageSource) :
    (if isSupported s then ok (toLocale s) else next) =
      (match parseLocale s with
       | some l => ok l
       | none => next) := by
  rcases supported_cases s with h | h | ⟨h1, h2⟩
  · subst h; simp [isSupported, toLocale, parseLocale]
  · subst h; simp [isSupported, toLocale, parseLocale]
  · simp [h1, h2]

/-- A detection tier guarded by nonemptiness and `isSupported` agrees with
the `parseLocale` reading (the empty string is unsupported anyway). -/
theorem supportedTierNE (s : String) (ok : LocaleCode → LocaleCode × LanguageSource)
    (next : LocaleCode × LanguageSource) :
    (if s ≠ "" && isSupported s then ok (toLocale s) else next) =
      (match parseLocale s with
       | some l => ok l
       | none => next) := by
  rcases supported_cases s with h | h | ⟨h1, h2⟩
  · subst h; simp [isSupported, toLocale, parseLocale]
  · subst h; simp [isSupported, toLocale, parseLocale]
  · simp [h1, h2]

/-- The source `detectLanguage` and the spec-side priority chain agree. -/
theorem detectLanguage_eq_spec (e : DetectEnv) :
    detectLanguage e = detectLanguageSpec e := by
  have hbrowser : detectLanguage.detectFromBrowser e =
      (match parseLocale (normalize2 (match e.userLanguage with
           | some u => if u = "" then e.navigatorLanguage else u
           | none => e.navigatorLanguage)) with
       | some l => (l, LanguageSource.browser)
       | none => (defaultLanguage, LanguageSource.default)) := by
    unfold detectLanguage.detectFromBrowser
    exact supportedTier _ (fun l => (l, LanguageSource.browser)) _
  have hhtml : detectLanguage.detectFromHtml e =
      (match e.htmlLang.bind (fun s => parseLocale (normalize2 s)) with
       | some l => (l, LanguageSource.html)
       | none =>
         match parseLocale (normalize2 (match e.userLanguage with
             | some u => if u = "" then e.navigatorLanguage else u
             | none => e.navigatorLanguage)) with
         | some l => (l, LanguageSource.browser)
         | none => (defaultLanguage, LanguageSource.default)) := by
    unfold detectLanguage.detectFromHtml
    cases hs : e.htmlLang with
    | none => simpa using hbrowser
    | some s =>
      dsimp only
      by_cases hse : s = ""
      · subst hse
        have hp : parseLocale (normalize2 "") = none := rfl
        simpa [hp] using hbrowser
      · rw [if_pos hse, supportedTier _ (fun l => (l, LanguageSource.html)) _,
           hbrowser]
        simp
  have hstorage : detectLanguage.detectFromStorage e =
      (match e.storageLang.bind parseLocale with
       | some l => (l, LanguageSource.localStorage)
       | none =>
         match e.htmlLang.bind (fun s => parseLocale (normalize2 s)) with
         | some l => (l, LanguageSource.html)
         | none =>
           match parseLocale (normalize2 (match e.userLanguage with
               | some u => if u = "" then e.navigatorLanguage else u
               | none => e.navigatorLanguage)) with
           | some l => (l, LanguageSource.browser)
           | none => (defaultLanguage, LanguageSource.default)) := by
    unfold detectLanguage.detectFromStorage
    cases hs : e.storageLang with
    | none => simpa using hhtml
    | some s =>
      dsimp only
      rw [supportedTierNE _ (fun l => (l, LanguageSource.localStorage)) _, hhtml]
      simp
  show detectLanguage e = detectLanguageSpec e
  unfold detectLanguage detectLanguageSpec
  cases hu : e.urlLang with
  | none => simpa using hstorage
  | some s =>
    dsimp only
    rw [supportedTierNE _ (fun l => (l, LanguageSource.url)) _, hstorage]
    simp

/-- The concrete detection scenario of the spec: URL `?lang=de`, stored
preference `en`, document language `fr` (unsupported after normalisation),
browser language `en`. -/
def sampleDetectEnv : DetectEnv :=
  { urlLang := some "de"
    storageLang := some "en"
    htmlLang := some "fr"
    userLanguage := none
    navigatorLanguage := "en" }

/-- Claim C2: `detectLanguage` always returns a result, choosing the first
of URL parameter, stored preference, normalised document language and
normalised browser language whose value is supported, with the matching
source tag, and the default locale `en` with source `default` otherwise —
stated as agreement with the spec-side priority chain on every input, plus
the specified concrete scenario returning `{language: "de", source: "url"}`. -/
theorem C2_detectLanguage_priority :
    (∀ e : DetectEnv, detectLanguage e = detectLanguageSpec e) ∧
    detectLanguage sampleDetectEnv = (LocaleCode.de, LanguageSource.url) :=
  ⟨detectLanguage_eq_spec, rfl⟩

/-- An import environment where only the default locale resolves. -/
def sampleEnvEnOnly : ImportEnv :=
  fun l _ => if l = .en then some (.obj [("x", .str "y")]) else none

/-- An import environment where every import rejects. -/
def sampleEnvFail : ImportEnv := fun _ _ => none

/-- Claim C3: `loadNamespace` never raises and returns a document for every
supported locale and namespace: the loaded document on success, the default
locale's document for the same namespace when a non-default locale fails,
and the empty document when the default locale itself fails.  (Totality —
never raises, never null — is the type of `loadNamespace` itself.) -/
theorem C3_loadNamespace_fallback :
    (∀ (env : ImportEnv) (l : LocaleCode) (n : Namespace)
       (doc : TranslationValue),
       env l n = some doc → loadNamespace env l n = doc) ∧
    (∀ (env : ImportEnv) (l : LocaleCode) (n : Namespace),
       env l n = none → l ≠ defaultLanguage →
       loadNamespace env l n = loadNamespace env defaultLanguage n) ∧
    (∀ (env : ImportEnv) (n : Namespace),
       env defaultLanguage n = none →
       loadNamespace env defaultLanguage n = TranslationValue.obj []) := by
  refine ⟨?_, ?_, ?_⟩
  · intro env l n doc h
    simp [loadNamespace, h]
  · intro env l n h hl
    simp only [loadNamespace, h]
    rw [if_pos hl]
    cases hd : env defaultLanguage n with
    | some d => simp [loadNamespaceDefault, hd]
    | none =>
      simp only [defaultLanguage] at hd
      simp [loadNamespaceDefault, hd, defaultLanguage]
  · intro env n h
    simp only [defaultLanguage] at h
    simp [loadNamespace, h, defaultLanguage, loadNamespaceDefault]

/-- Witness for C3: concrete environments exercising all three conjuncts —
a successful import, the fallback from `de` to `en`, and the empty document
when even the default locale fails. -/
theorem C3_loadNamespace_fallback_witness :
    loadNamespace sampleEnvEnOnly .en .common =
      TranslationValue.obj [("x", .str "y")] ∧
    loadNamespace sampleEnvEnOnly .de .common =
      loadNamespace sampleEnvEnOnly .en .common ∧
    loadNamespace sampleEnvFail .en .common = TranslationValue.obj [] :=
  ⟨C3_loadNamespace_fallback.1 sampleEnvEnOnly .en .common _ rfl,
   C3_loadNamespace_fallback.2.1 sampleEnvEnOnly .de .common rfl (by decide),
   C3_loadNamespace_fallback.2.2 sampleEnvFail .common rfl⟩

/-- Setting a key then reading it back gives the new value. -/
theorem objGet_objSet_self (fs : List (String × TranslationValue))
    (k : String) (v : TranslationValue) :
    objGet (objSet fs k v) k = some v := by
  induction fs with
  | nil => simp [objSet, objGet]
  | cons a rest ih =>
    obtain ⟨ka, va⟩ := a
    by_cases hk : ka = k
    · subst hk; simp [objSet, objGet]
    · simp [objSet, objGet, hk, List.find?_cons] at ih ⊢
      simpa [objGet] using ih

/-- Setting a key leaves every other key unchanged. -/
theorem objGet_objSet_ne (fs : List (String × TranslationValue))
    (k q : String) (v : TranslationValue) (h : q ≠ k) :
    objGet (objSet fs k v) q = objGet fs q := by
  induction fs with
  | nil =>
    simp [objSet, objGet]
    exact fun he => h he.symm
  | cons a rest ih =>
    obtain ⟨ka, va⟩ := a
    by_cases hk : ka = k
    · subst hk
      have hne : (ka == q) = false := by
        simp only [beq_eq_false_iff_ne, ne_eq]
        exact fun he => h he.symm
      simp [objSet, objGet, List.find?_cons, hne]
    · simp only [objGet] at ih
      simp only [objSet, if_neg hk, objGet, List.find?_cons]
      cases hbq : (ka == q) <;> simp [hbq, ih]

/-- A fold of per-namespace assignments does not touch other keys. -/
theorem objGet_setFold_preserve (f : Namespace → TranslationValue) :
    ∀ (ns : List Namespace) (acc : List (String × TranslationValue))
      (q : String), (∀ m ∈ ns, nsName m ≠ q) →
      objGet (ns.foldl (fun a m => objSet a (nsName m) (f m)) acc) q =
        objGet acc q := by
  intro ns
  induction ns with
  | nil => intro acc q _; rfl
  | cons m rest ih =>
    intro acc q h
    simp only [List.foldl_cons]
    rw [ih _ q (fun m' hm' => h m' (List.mem_cons_of_mem _ hm'))]
    exact objGet_objSet_ne _ _ _ _
      (fun he => h m (List.mem_cons_self _ _) he.symm)

/-- A fold of per-namespace assignments over distinct names stores each
namespace's value. -/
theorem objGet_setFold_mem (f : Namespace → TranslationValue) :
    ∀ (ns : List Namespace) (acc : List (String × TranslationValue))
      (n : Namespace), n ∈ ns → (ns.map nsName).Nodup →
      objGet (ns.foldl (fun a m => objSet a (nsName m) (f m)) acc)
        (nsName n) = some (f n) := by
  intro ns
  induction ns with
  | nil => intro acc n h _; exact absurd h (List.not_mem_nil n)
  | cons m rest ih =>
    intro acc n hmem hnodup
    have hsplit : (∀ x ∈ rest, ¬ nsName x = nsName m) ∧
        (rest.map nsName).Nodup := by simpa using hnodup
    simp only [List.foldl_cons]
    rcases List.mem_cons.mp hmem with he | hrest
    · subst he
      rw [objGet_setFold_preserve f rest _ _ (fun m' hm' => hsplit.1 m' hm'),
        objGet_objSet_self]
    · exact ih _ n hrest hsplit.2

/-- The namespace names are pairwise distinct. -/
theorem nsNames_nodup : (translationNamespaces.map nsName).Nodup := by
  decide

/-- Every namespace occurs in the fixed namespace list. -/
theorem mem_translationNamespaces (n : Namespace) :
    n ∈ translationNamespaces := by
  cases n <;> decide

/-- The combined document set of a fresh full-locale load holds exactly
the `loadNamespace` result of every namespace. -/
theorem objGet_combinedTranslations (env : ImportEnv) (l : LocaleCode)
    (n : Namespace) :
    objGet (combinedTranslations env l) (nsName n) =
      some (loadNamespace env l n) :=
  objGet_setFold_mem (loadNamespace env l) translationNamespaces [] n
    (mem_translationNamespaces n) nsNames_nodup

/-- An import environment where every import resolves with the same small
object. -/
def sampleEnvFull : ImportEnv := fun _ _ => some (.obj [("k", .str "v")])

/-- Counterexample to claim C4: a `loadSingleNamespace` call that runs
before the full-locale load leaves a partial cache entry (only `common`),
and the subsequent `loadLocaleFile(de, useCache=true)` returns that partial
set — its `home` namespace is absent, so the call does not return one
document per namespace. -/
theorem C4_counterexample :
    (((loadSingleNamespace sampleEnvFull .de .common emptyCache).2.1)
        LocaleCode.de).isSome = true ∧
    objGet (loadLocaleFile sampleEnvFull .de true
        ((loadSingleNamespace sampleEnvFull .de .common emptyCache).2.1)).1
      "home" = none :=
  ⟨rfl, rfl⟩

/-- A cache miss makes `loadLocaleFile` load, cache and return the combined
set, for either `useCache` value. -/
theorem loadLocaleFile_miss (env : ImportEnv) (l : LocaleCode) (c : Cache)
    (h : c l = none) (u : Bool) :
    loadLocaleFile env l u c =
      (combinedTranslations env l,
       cacheSet c l (combinedTranslations env l), localeFetches env l) := by
  cases u <;> simp [loadLocaleFile, h]

/-- Claim C4 (amended): whenever the cache holds no entry for the locale at
call time, `loadLocaleFile(locale, useCache=true)` returns the combined set
with one document per namespace in the fixed list and populates the cache
with that set; a partial entry left by an earlier `loadSingleNamespace` is
returned as-is instead. -/
theorem C4_loadLocaleFile_fresh :
    ∀ (env : ImportEnv) (l : LocaleCode) (c : Cache), c l = none →
      (∀ n : Namespace,
        objGet (loadLocaleFile env l true c).1 (nsName n) =
          some (loadNamespace env l n)) ∧
      ((loadLocaleFile env l true c).2.1) l =
        some (loadLocaleFile env l true c).1 := by
  intro env l c h
  rw [loadLocaleFile_miss env l c h]
  dsimp only
  constructor
  · intro n
    exact objGet_combinedTranslations env l n
  · simp [cacheSet]

/-- Witness for C4 (amended): a fresh load over the empty cache returns
every namespace, here checked for `home`. -/
theorem C4_loadLocaleFile_fresh_witness :
    objGet (loadLocaleFile sampleEnvFull .en true emptyCache).1 "home" =
      some (loadNamespace sampleEnvFull .en .home) :=
  (C4_loadLocaleFile_fresh sampleEnvFull .en emptyCache rfl).1 .home

/-- A cache hit under `useCache=true` returns the entry unchanged with
no import attempts. -/
theorem loadLocaleFile_hit (env : ImportEnv) (l : LocaleCode) (c : Cache)
    (r : NamespacedTranslations) (h : c l = some r) :
    loadLocaleFile env l true c = (r, c, []) := by
  simp [loadLocaleFile, h]

/-- With `useCache=false` the cache is bypassed and overwritten. -/
theorem loadLocaleFile_nocache (env : ImportEnv) (l : LocaleCode)
    (c : Cache) :
    loadLocaleFile env l false c =
      (combinedTranslations env l,
       cacheSet c l (combinedTranslations env l), localeFetches env l) := by
  simp [loadLocaleFile]

/-- A single `loadNamespace` call always attempts at least one import. -/
theorem namespaceFetches_ne_nil (env : ImportEnv) (l : LocaleCode)
    (n : Namespace) : namespaceFetches env l n ≠ [] := by
  unfold namespaceFetches
  cases env l n
  · dsimp only
    split <;> simp
  · simp

/-- A full-locale load always attempts at least one import. -/
theorem localeFetches_ne_nil (env : ImportEnv) (l : LocaleCode) :
    localeFetches env l ≠ [] := by
  simp only [localeFetches, translationNamespaces, List.map_cons,
    List.flatten_cons]
  intro h
  rcases List.append_eq_nil.mp h with ⟨h1, _⟩
  exact namespaceFetches_ne_nil env l .common h1

/-- Claim C5: every `loadLocaleFile` call leaves its result cached; once an
entry exists, a `useCache=true` call returns exactly the cached set with
no import attempt and no state change; `clearCache` (for the locale or global)
removes the entry; after a clear the next call performs imports again and
re-populates the cache; and no load operation ever removes an existing
entry — only `clearCache` does. -/
theorem C5_cache_lifecycle :
    (∀ (env : ImportEnv) (l : LocaleCode) (u : Bool) (c : Cache),
       ((loadLocaleFile env l u c).2.1) l = some (loadLocaleFile env l u c).1) ∧
    (∀ (env : ImportEnv) (l : LocaleCode) (c : Cache)
       (r : NamespacedTranslations),
       c l = some r → loadLocaleFile env l true c = (r, c, [])) ∧
    (∀ (c : Cache) (l : LocaleCode), clearCache (some l) c l = none ∧
       ∀ x, clearCache none c x = none) ∧
    (∀ (env : ImportEnv) (l : LocaleCode) (c : Cache),
       (loadLocaleFile env l true (clearCache (some l) c)).2.2 =
         localeFetches env l ∧
       localeFetches env l ≠ [] ∧
       ((loadLocaleFile env l true (clearCache (some l) c)).2.1) l =
         some (combinedTranslations env l)) ∧
    (∀ (env : ImportEnv) (l l₀ : LocaleCode) (n : Namespace) (c : Cache),
       (c l₀).isSome →
       (((loadSingleNamespace env l n c).2.1) l₀).isSome ∧
       ∀ u, (((loadLocaleFile env l u c).2.1) l₀).isSome) := by
  refine ⟨?_, ?_, ?_, ?_, ?_⟩
  · intro env l u c
    cases hc : c l with
    | none =>
      rw [loadLocaleFile_miss env l c hc u]
      dsimp only
      simp [cacheSet]
    | some r =>
      cases u with
      | false =>
        rw [loadLocaleFile_nocache env l c]
        dsimp only
        simp [cacheSet]
      | true =>
        rw [loadLocaleFile_hit env l c r hc]
        dsimp only
        exact hc
  · intro env l c r h
    exact loadLocaleFile_hit env l c r h
  · intro c l
    exact ⟨by simp [clearCache], fun x => by simp [clearCache]⟩
  · intro env l c
    have hc : clearCache (some l) c l = none := by simp [clearCache]
    rw [loadLocaleFile_miss env l _ hc true]
    dsimp only
    exact ⟨rfl, localeFetches_ne_nil env l, by simp [cacheSet]⟩
  · intro env l l₀ n c h
    refine ⟨?_, ?_⟩
    · unfold loadSingleNamespace
      cases hc : c l with
      | some cached =>
        dsimp only
        cases hg : objGet cached (nsName n) with
        | some d =>
          simp only [hg]
          simpa using h
        | none =>
          simp only [hg]
          by_cases he : l₀ = l <;> simp [cacheSet, he, h]
      | none =>
        dsimp only
        by_cases he : l₀ = l <;> simp [cacheSet, he, h]
    · intro u
      cases hc : c l with
      | none =>
        rw [loadLocaleFile_miss env l c hc u]
        dsimp only
        by_cases he : l₀ = l <;> simp [cacheSet, he, h]
      | some r =>
        cases u with
        | true =>
          rw [loadLocaleFile_hit env l c r hc]
          dsimp only
          simpa using h
        | false =>
          rw [loadLocaleFile_nocache env l c]
          dsimp only
          by_cases he : l₀ = l <;> simp [cacheSet, he, h]

/-- A small already-populated cache entry for the default locale. -/
def sampleCachedSet : NamespacedTranslations := [("common", .obj [])]

/-- A cache holding `sampleCachedSet` for `en`. -/
def sampleCache : Cache := cacheSet emptyCache .en sampleCachedSet

/-- Witness for C5: on a populated cache, a `useCache=true` call returns the
cached entry unchanged with no imports, and a single-namespace load keeps
the entry present. -/
theorem C5_cache_lifecycle_witness :
    loadLocaleFile sampleEnvFull .en true sampleCache =
      (sampleCachedSet, sampleCache, []) ∧
    (((loadSingleNamespace sampleEnvFull .en .home sampleCache).2.1)
        LocaleCode.en).isSome = true :=
  ⟨C5_cache_lifecycle.2.1 sampleEnvFull .en sampleCache sampleCachedSet rfl,
   (C5_cache_lifecycle.2.2.2.2 sampleEnvFull .en .en .home sampleCache
      (by rfl)).1⟩

/-- A two-trigger tab group with default `a` and no show-all mode. -/
def sampleTabCfg : TabConfig :=
  { tabValues := [some "a", some "b"]
    contentValues := [some "a", some "b"]
    defaultTab := "a" }

/-- Counterexample to claim C6: with URL parameter value `zzz`, which
matches no trigger, initialization activates `zzz` — not the configured
default `a` as the claim requires. -/
theorem C6_counterexample :
    (initTabs sampleTabCfg (some "zzz") [false, false]).map
        (fun r => r.activatedValue) = some "zzz" ∧
    sampleTabCfg.tabValues.contains (some "zzz") = false ∧
    sampleTabCfg.defaultTab = "a" ∧ ("zzz" : String) ≠ "a" :=
  ⟨rfl, rfl, rfl, by decide⟩

/-- Claim C6 (amended): the discriminator value activated at initialization
equals the URL query parameter value whenever that parameter is present and
non-empty — whether or not it matches any trigger — and the configured
default value otherwise. -/
theorem C6_initialTab_from_url :
    (∀ (cfg : TabConfig) (urlValue : Option String)
       (markupFlags : List Bool) (r : InitResult),
       initTabs cfg urlValue markupFlags = some r →
       r.activatedValue = initialTab urlValue cfg.defaultTab) ∧
    (∀ d : String, initialTab none d = d ∧ initialTab (some "") d = d) ∧
    (∀ v d : String, v ≠ "" → initialTab (some v) d = v) := by
  refine ⟨?_, ?_, ?_⟩
  · intro cfg urlValue markupFlags r h
    unfold initTabs at h
    split at h
    · exact absurd h (by simp)
    · simp only [Option.some_inj] at h
      rw [← h]
  · intro d
    exact ⟨rfl, rfl⟩
  · intro v d hv
    simp [initialTab, hv]

/-- Witness for C6 (amended): the sample group with URL value `b`. -/
theorem C6_initialTab_from_url_witness :
    ({ activatedValue := "b", currentTabIndex := 1,
       activeFlags := [false, true], visible := [false, true] } :
        InitResult).activatedValue =
      initialTab (some "b") sampleTabCfg.defaultTab ∧
    initialTab (some "b") "a" = "b" :=
  ⟨C6_initialTab_from_url.1 sampleTabCfg (some "b") [false, false] _ rfl,
   C6_initialTab_from_url.2.2 "b" "a" (by decide)⟩

/-- Marking an out-of-range trigger marks nothing. -/
theorem count_markActive_ge : ∀ (numTabs i : Nat), numTabs ≤ i →
    (markActive numTabs i).count true = 0 := by
  intro numTabs
  induction numTabs with
  | zero => intro i _; rfl
  | succ n ih =>
    intro i h
    have hrec := ih i (Nat.le_of_succ_le h)
    have hne : (n == i) = false := by
      simp only [beq_eq_false_iff_ne, ne_eq]
      omega
    simp only [markActive, List.range_succ, List.map_append, List.map_cons,
      List.map_nil, List.count_append] at hrec ⊢
    rw [hrec]
    simp [hne]

/-- Marking an in-range trigger marks exactly one trigger. -/
theorem count_markActive : ∀ (numTabs i : Nat), i < numTabs →
    (markActive numTabs i).count true = 1 := by
  intro numTabs
  induction numTabs with
  | zero => intro i h; omega
  | succ n ih =>
    intro i h
    by_cases he : i = n
    · subst he
      have h0 := count_markActive_ge i i (Nat.le_refl i)
      simp only [markActive, List.range_succ, List.map_append, List.map_cons,
        List.map_nil, List.count_append] at h0 ⊢
      rw [h0]
      simp
    · have h1 := ih i (by omega)
      have hne : (n == i) = false := by
        simp only [beq_eq_false_iff_ne, ne_eq]
        omega
      simp only [markActive, List.range_succ, List.map_append, List.map_cons,
        List.map_nil, List.count_append] at h1 ⊢
      rw [h1]
      simp [hne]

/-- Counterexample to claim C7: the group is not in show-all mode, the URL
value matches no trigger, and the markup started with no active trigger —
after initialization no trigger carries the active marker classes, so
"exactly one active trigger" fails. -/
theorem C7_counterexample :
    sampleTabCfg.showAll = false ∧
    (initTabs sampleTabCfg (some "zzz") [false, false]).map
        (fun r => r.activeFlags) = some [false, false] ∧
    [false, false].count true ≠ 1 :=
  ⟨rfl, rfl, by decide⟩

/-- A quiescent state of the sample group (trigger 0 active). -/
def sampleTabState : TabState :=
  { currentTabIndex := 0
    activeFlags := [true, false]
    url := none
    visible := [true, false]
    rotationActive := false
    pendingRestart := none }

/-- Claim C7 (amended): every operation that runs `updateActiveTab` leaves
exactly one trigger carrying the active marker classes — the targeted one.
That covers initialization when some trigger matches the initial value, a
click on a trigger with a non-empty discriminator, a rotation tick whose
next trigger has a non-empty discriminator, and a history pop whose value
matches a trigger.  When the initial value matches no trigger,
initialization leaves the markup classes untouched (see the
counterexample), so the invariant is not established there. -/
theorem C7_exactly_one_active :
    (∀ numTabs i : Nat, i < numTabs →
       (markActive numTabs i).count true = 1) ∧
    (∀ (cfg : TabConfig) (urlValue : Option String)
       (markupFlags : List Bool) (r : InitResult) (i : Nat),
       initTabs cfg urlValue markupFlags = some r →
       cfg.tabValues.findIdx?
           (fun v => v == some (initialTab urlValue cfg.defaultTab)) =
         some i →
       r.activeFlags = markActive cfg.tabValues.length i ∧
       r.activeFlags.count true = 1) ∧
    (∀ (cfg : TabConfig) (i : Nat) (s : TabState) (v : String),
       cfg.tabValues.get? i = some (some v) → v ≠ "" →
       (clickTab cfg i s).activeFlags = markActive cfg.tabValues.length i ∧
       (clickTab cfg i s).activeFlags.count true = 1) ∧
    (∀ (cfg : TabConfig) (s : TabState) (v : String),
       cfg.tabValues.get? ((s.currentTabIndex + 1) % cfg.tabValues.length) =
         some (some v) → v ≠ "" →
       (rotationTick cfg s).activeFlags =
         markActive cfg.tabValues.length
           ((s.currentTabIndex + 1) % cfg.tabValues.length) ∧
       (rotationTick cfg s).activeFlags.count true = 1) ∧
    (∀ (cfg : TabConfig) (urlValue : Option String) (s : TabState) (i : Nat),
       cfg.tabValues.findIdx?
           (fun tv => tv == some (initialTab urlValue cfg.defaultTab)) =
         some i →
       (popstateTab cfg urlValue s).activeFlags =
         markActive cfg.tabValues.length i ∧
       (popstateTab cfg urlValue s).activeFlags.count true = 1) := by
  refine ⟨count_markActive, ?_, ?_, ?_, ?_⟩
  · intro cfg urlValue markupFlags r i h hf
    have hb : i < cfg.tabValues.length :=
      (List.findIdx?_eq_some_iff_findIdx_eq.mp hf).1
    unfold initTabs at h
    split at h
    · exact absurd h (by simp)
    · simp only [Option.some_inj] at h
      rw [← h]
      simp only [hf]
      exact ⟨by trivial, count_markActive _ i hb⟩
  · intro cfg i s v hget hv
    have hb : i < cfg.tabValues.length := by
      rcases Nat.lt_or_ge i cfg.tabValues.length with h' | h'
      · exact h'
      · rw [List.get?_eq_none.mpr h'] at hget
        exact absurd hget (by simp)
    unfold clickTab
    simp only [hget]
    rw [if_neg hv]
    exact ⟨by trivial, count_markActive _ i hb⟩
  · intro cfg s v hget hv
    have hb : (s.currentTabIndex + 1) % cfg.tabValues.length <
        cfg.tabValues.length := by
      rcases Nat.lt_or_ge ((s.currentTabIndex + 1) % cfg.tabValues.length)
          cfg.tabValues.length with h' | h'
      · exact h'
      · rw [List.get?_eq_none.mpr h'] at hget
        exact absurd hget (by simp)
    unfold rotationTick
    simp only [hget]
    rw [if_neg hv]
    exact ⟨by trivial, count_markActive _ _ hb⟩
  · intro cfg urlValue s i hf
    have hb : i < cfg.tabValues.length :=
      (List.findIdx?_eq_some_iff_findIdx_eq.mp hf).1
    unfold popstateTab
    simp only [hf]
    exact ⟨by trivial, count_markActive _ i hb⟩

/-- Witness for C7 (amended): clicking trigger 1 of the sample group marks
exactly that trigger active. -/
theorem C7_exactly_one_active_witness :
    (clickTab sampleTabCfg 1 sampleTabState).activeFlags =
      markActive sampleTabCfg.tabValues.length 1 ∧
    (clickTab sampleTabCfg 1 sampleTabState).activeFlags.count true = 1 :=
  C7_exactly_one_active.2.2.1 sampleTabCfg 1 sampleTabState "b" rfl (by decide)

/-- A three-trigger group with auto-rotation at 5000ms. -/
def sampleRotCfg : TabConfig :=
  { tabValues := [some "a", some "b", some "c"]
    contentValues := [some "a", some "b", some "c"]
    defaultTab := "a"
    autoRotate := true
    autoRotateInterval := 5000 }

/-- The same group but with the middle trigger lacking its discriminator
attribute. -/
def sampleBadRotCfg : TabConfig :=
  { tabValues := [some "a", none, some "c"]
    contentValues := [some "a", some "b", some "c"]
    defaultTab := "a"
    autoRotate := true
    autoRotateInterval := 5000 }

/-- The state right after initialization of the rotating sample group. -/
def sampleRotState : TabState :=
  { currentTabIndex := 0
    activeFlags := [true, false, false]
    url := none
    visible := [true, false, false]
    rotationActive := true
    pendingRestart := none }

/-- Counterexample to claim C8: when the clicked trigger carries no
discriminator attribute the handler returns before clearing the interval
timer, so the rotation keeps running; and a tick that advances onto such a
trigger updates neither styling, URL, nor content. -/
theorem C8_counterexample :
    sampleBadRotCfg.autoRotate = true ∧
    sampleRotState.rotationActive = true ∧
    (clickTab sampleBadRotCfg 1 sampleRotState).rotationActive = true ∧
    (rotationTick sampleBadRotCfg sampleRotState).currentTabIndex = 1 ∧
    (rotationTick sampleBadRotCfg sampleRotState).activeFlags =
      sampleRotState.activeFlags ∧
    sampleRotState.activeFlags ≠ markActive 3 1 :=
  ⟨rfl, rfl, rfl, rfl, rfl, by decide⟩

/-- Claim C8 (amended): every rotation tick advances `currentTabIndex`
cyclically; when the trigger at the new position carries a non-empty
discriminator value the tick updates trigger styling, URL parameter and
content for that value; a click on such a trigger clears the rotation
timer (so a tick of the cleared timer does nothing) and schedules the
restart after one full `autoRotateInterval`; with the three-trigger sample
the tick sequence of indices is 0 → 1 → 2 → 0.  Clicks on triggers without
a non-empty discriminator are ignored and leave the timer running (see the
counterexample). -/
theorem C8_autoRotation :
    (∀ (cfg : TabConfig) (s : TabState),
       (rotationTick cfg s).currentTabIndex =
         (s.currentTabIndex + 1) % cfg.tabValues.length) ∧
    (∀ (cfg : TabConfig) (s : TabState) (v : String),
       cfg.tabValues.get? ((s.currentTabIndex + 1) % cfg.tabValues.length) =
         some (some v) → v ≠ "" →
       rotationTick cfg s =
         { s with
           currentTabIndex := (s.currentTabIndex + 1) % cfg.tabValues.length
           activeFlags := markActive cfg.tabValues.length
             ((s.currentTabIndex + 1) % cfg.tabValues.length)
           url := updateURL cfg v
           visible := contentVisible cfg v }) ∧
    (∀ (cfg : TabConfig) (i : Nat) (s : TabState) (v : String),
       cfg.tabValues.get? i = some (some v) → v ≠ "" →
       (clickTab cfg i s).rotationActive = false ∧
       (clickTab cfg i s).pendingRestart =
         (if cfg.autoRotate then some cfg.autoRotateInterval else none) ∧
       tickIfActive cfg (clickTab cfg i s) = clickTab cfg i s) ∧
    (∀ (cfg : TabConfig) (s : TabState), s.rotationActive = false →
       tickIfActive cfg s = s) ∧
    ((rotationTick sampleRotCfg sampleRotState).currentTabIndex = 1 ∧
     (rotationTick sampleRotCfg
         (rotationTick sampleRotCfg sampleRotState)).currentTabIndex = 2 ∧
     (rotationTick sampleRotCfg (rotationTick sampleRotCfg
         (rotationTick sampleRotCfg sampleRotState))).currentTabIndex = 0 ∧
     (clickTab sampleRotCfg 1 sampleRotState).rotationActive = false ∧
     (clickTab sampleRotCfg 1 sampleRotState).pendingRestart = some 5000) := by
  refine ⟨?_, ?_, ?_, ?_, rfl, rfl, rfl, rfl, rfl⟩
  · intro cfg s
    unfold rotationTick
    cases hg : cfg.tabValues.get?
        ((s.currentTabIndex + 1) % cfg.tabValues.length) with
    | none => simp only [hg]
    | some a =>
      cases a with
      | none => simp only [hg]
      | some v =>
        simp only [hg]
        by_cases hv : v = ""
        · rw [if_pos hv]
        · rw [if_neg hv]
  · intro cfg s v hget hv
    unfold rotationTick
    simp only [hget]
    rw [if_neg hv]
  · intro cfg i s v hget hv
    unfold clickTab
    simp only [hget]
    rw [if_neg hv]
    exact ⟨rfl, rfl, by simp [tickIfActive]⟩
  · intro cfg s h
    simp [tickIfActive, h]

/-- Witness for C8 (amended): on the rotating sample group, a tick from
index 0 activates trigger 1 (`b`) fully, and a click on trigger 1 clears
the timer and schedules the restart. -/
theorem C8_autoRotation_witness :
    rotationTick sampleRotCfg sampleRotState =
      { sampleRotState with
        currentTabIndex := (sampleRotState.currentTabIndex + 1) %
          sampleRotCfg.tabValues.length
        activeFlags := markActive sampleRotCfg.tabValues.length
          ((sampleRotState.currentTabIndex + 1) %
            sampleRotCfg.tabValues.length)
        url := updateURL sampleRotCfg "b"
        visible := contentVisible sampleRotCfg "b" } ∧
    (clickTab sampleRotCfg 1 sampleRotState).rotationActive = false ∧
    tickIfActive sampleRotCfg (clickTab sampleRotCfg 1 sampleRotState) =
      clickTab sampleRotCfg 1 sampleRotState :=
  ⟨C8_autoRotation.2.1 sampleRotCfg sampleRotState "b" rfl (by decide),
   (C8_autoRotation.2.2.1 sampleRotCfg 1 sampleRotState "b" rfl (by decide)).1,
   (C8_autoRotation.2.2.1 sampleRotCfg 1 sampleRotState "b" rfl
      (by decide)).2.2⟩

/-- Mapping a function of the position over an enumerated list is a map
over the index range. -/
theorem enum_map_fst_fun {α β : Type} (l : List α) (f : Nat → β) :
    l.enum.map (fun p => f p.1) = (List.range l.length).map f := by
  have h : l.enum.map Prod.fst = List.range l.length := by
    show (List.enumFrom 0 l).map Prod.fst = List.range l.length
    rw [List.enumFrom_map_fst, List.range_eq_range']
  calc l.enum.map (fun p => f p.1)
      = (l.enum.map Prod.fst).map f := by rw [List.map_map]; rfl
    _ = (List.range l.length).map f := by rw [h]

/-- Filtering an enumerated list on the element part keeps as many entries
as filtering the list itself. -/
theorem length_enumFrom_filter {α : Type} (q : α → Bool) :
    ∀ (i : Nat) (l : List α),
      ((List.enumFrom i l).filter (fun p => q p.2)).length =
        (l.filter q).length := by
  intro i l
  induction l generalizing i with
  | nil => rfl
  | cons a rest ih =>
    simp only [List.enumFrom_cons, List.filter_cons]
    cases q a <;> simp [ih]

/-- The `enum` version of `length_enumFrom_filter`. -/
theorem length_enum_filter {α : Type} (l : List α) (q : α → Bool) :
    (l.enum.filter (fun p => q p.2)).length = (l.filter q).length :=
  length_enumFrom_filter q 0 l

/-- Claim C9: within one `switchContent(tabValue, animate)` call over `n`
outgoing and `m` incoming blocks, the outgoing block at position `i` is
removed from layout flow `200 + i*30` ms after the call when animated
(immediately otherwise), the show phase runs after exactly
`200 + (n-1)*30` ms when animated and `0` otherwise, and the incoming
block at position `j` receives the CSS delay `j * staggerDelay` and the
duration `animationDuration`. -/
theorem C9_switchContent_schedule :
    ∀ (cfg : TabConfig) (tabValue : String) (animate : Bool),
      ((switchContent cfg tabValue animate).hideRemovals.map (fun p => p.2) =
        (List.range ((cfg.contentValues.filter
            (fun cv => !(shouldShow cfg tabValue cv))).length)).map
          (fun i : Nat => if animate then (200 : Int) + (i : Int) * 30
            else 0)) ∧
      ((switchContent cfg tabValue animate).showPhaseDelay =
        if animate then
          200 + (((cfg.contentValues.filter
            (fun cv => !(shouldShow cfg tabValue cv))).length : Int) - 1) * 30
        else 0) ∧
      ((switchContent cfg tabValue animate).showItems.map (fun p => p.2.1) =
        (List.range ((cfg.contentValues.filter
            (shouldShow cfg tabValue)).length)).map
          (fun j : Nat => (j : Int) * cfg.staggerDelay)) ∧
      ((switchContent cfg tabValue animate).showItems.map (fun p => p.2.2) =
        (List.range ((cfg.contentValues.filter
            (shouldShow cfg tabValue)).length)).map
          (fun _ : Nat => cfg.animationDuration)) := by
  intro cfg tabValue animate
  have hlenH := length_enum_filter cfg.contentValues
    (fun cv => !(shouldShow cfg tabValue cv))
  have hlenS := length_enum_filter cfg.contentValues
    (shouldShow cfg tabValue)
  unfold switchContent
  dsimp only
  refine ⟨?_, ?_, ?_, ?_⟩
  · rw [List.map_map]
    have h := enum_map_fst_fun
      (cfg.contentValues.enum.filter (fun p => !(shouldShow cfg tabValue p.2)))
      (fun i : Nat => if animate then (200 : Int) + (i : Int) * 30 else 0)
    rw [hlenH] at h
    exact h
  · rw [hlenH]
  · rw [List.map_map]
    have h := enum_map_fst_fun
      (cfg.contentValues.enum.filter (fun p => shouldShow cfg tabValue p.2))
      (fun j : Nat => (j : Int) * cfg.staggerDelay)
    rw [hlenS] at h
    exact h
  · rw [List.map_map]
    have h := enum_map_fst_fun
      (cfg.contentValues.enum.filter (fun p => shouldShow cfg tabValue p.2))
      (fun _ : Nat => cfg.animationDuration)
    rw [hlenS] at h
    exact h

/-- An environment whose `common` namespace holds the key `a` with the
empty string as its value. -/
def sampleEnvEmptyStr : ImportEnv :=
  fun _ n => if n = .common then some (.obj [("a", .str "")]) else
    some (.obj [])

/-- Counterexample to claim C10: the key `common.a` resolves to a string —
the empty string — yet `t` returns the key itself, because the falsiness
check `if (!text)` also catches `""`; the claim requires the resolved
string (with substitutions) to be returned whenever the key resolves. -/
theorem C10_counterexample :
    getNestedTranslation "common.a"
        (loadLocaleFile sampleEnvEmptyStr .en true emptyCache).1 = some "" ∧
    (t sampleEnvEmptyStr .en "common.a" [] emptyCache).1 = some "common.a" ∧
    ("common.a" : String) ≠ "" :=
  ⟨rfl, rfl, by decide⟩

/-- On the modelled literal-regex fragment the variable pass is total and
is exactly the fold of global literal replacements, in entry order. -/
theorem applyVariables_plain :
    ∀ (vars : List (String × String)) (text : String),
      vars.all (fun p => regexPlainName p.1 && plainValue p.2) = true →
      applyVariables text vars =
        some (vars.foldl
          (fun acc p => jsReplaceAll acc ("\x7b" ++ p.1 ++ "\x7d") p.2)
          text) := by
  intro vars
  induction vars with
  | nil => intro text _; rfl
  | cons p rest ih =>
    intro text hall
    simp only [List.all_cons, Bool.and_eq_true] at hall
    have hc : (regexPlainName p.1 && plainValue p.2) = true := by
      rw [hall.1.1, hall.1.2]
      rfl
    show (substituteVariable text p.1 p.2).bind
        (fun acc => rest.foldlM (fun a q => substituteVariable a q.1 q.2)
          acc) = _
    rw [substituteVariable, if_pos hc]
    simp only [Option.some_bind, List.foldl_cons]
    exact ih _ hall.2

/-- Claim C10 (amended): when the key resolves to `null` or to the empty
string, `t` returns the key unchanged — the variable pass never runs on
that path, so `t` cannot throw there whatever the variable map holds.
When the key resolves to a non-empty string and the variable map lies in
the literal-regex fragment — every name made of regex-literal characters
and not a pure digit string, every value without `$` — the call does not
throw and returns the resolved string with each `{name}` placeholder
replaced globally and literally by the supplied value, in entry order.
Outside that fragment the regex-built replacement of the source applies
(it can throw a SyntaxError for a regex-invalid name such as `(`, match
non-placeholder text for a metacharacter name such as `a.b`, and
interpret `$` patterns in values); the embedding marks that region
explicitly and this theorem claims nothing there. -/
theorem C10_t_total :
    ∀ (env : ImportEnv) (lang : LocaleCode) (key : String)
      (vars : List (String × String)) (c : Cache),
      (getNestedTranslation key (loadLocaleFile env lang true c).1 = none →
        (t env lang key vars c).1 = some key) ∧
      (getNestedTranslation key (loadLocaleFile env lang true c).1 =
          some "" → (t env lang key vars c).1 = some key) ∧
      (∀ str : String,
        getNestedTranslation key (loadLocaleFile env lang true c).1 =
          some str → str ≠ "" →
        vars.all (fun p => regexPlainName p.1 && plainValue p.2) = true →
        (t env lang key vars c).1 =
          some (vars.foldl
            (fun acc p => jsReplaceAll acc ("\x7b" ++ p.1 ++ "\x7d") p.2)
            str)) := by
  intro env lang key vars c
  refine ⟨?_, ?_, ?_⟩
  · intro h
    unfold t
    simp only [h]
  · intro h
    unfold t
    simp only [h]
    rw [if_pos trivial]
  · intro str h hstr hall
    unfold t
    simp only [h]
    rw [if_neg hstr]
    exact applyVariables_plain vars str hall

/-- An environment whose `common` namespace holds a greeting with a
placeholder. -/
def sampleEnvGreet : ImportEnv :=
  fun _ n => if n = .common then
    some (.obj [("greet", .str "Hello, \x7bname\x7d!")]) else some (.obj [])

/-- Witness for C10 (amended): the variable map with the single in-fragment
entry `name := "Go"` substitutes into the resolved greeting without
leaving the modelled fragment. -/
theorem C10_t_total_witness :
    (t sampleEnvGreet .en "common.greet" [("name", "Go")] emptyCache).1 =
      some ([(("name" : String), ("Go" : String))].foldl
        (fun acc p => jsReplaceAll acc ("\x7b" ++ p.1 ++ "\x7d") p.2)
        "Hello, \x7bname\x7d!") ∧
    jsReplaceAll "Hello, \x7bname\x7d!" "\x7bname\x7d" "Go" = "Hello, Go!" :=
  ⟨(C10_t_total sampleEnvGreet .en "common.greet" [("name", "Go")]
      emptyCache).2.2 "Hello, \x7bname\x7d!" rfl (by decide) (by decide),
   rfl⟩
